import Mathlib

/-!
# Verification of the raspi-doctor learning/decision core

Shallow embedding of the core of `enhanced_doctor.py` (class `KnowledgeBase`,
class `AutonomousDoctor`): the similarity matcher, the pattern / outcome /
metric stores, the trend analyzer, the decision engine's action ranking, the
improvement formula, action execution and outcome logging, and the AI-fallback
consultation.

Modelling conventions:
* Python numbers are `ℚ`; timestamps are `ℚ` (ISO strings compare
  chronologically, so any linearly ordered stamp type is faithful).
* A Python dict used as a pattern payload is a `List (String × Value)`
  (insertion-ordered entries); `set(keys)` becomes a `Finset String`.
* `md5(json.dumps(data, sort_keys=True))` is modelled as the keys-sorted entry
  list itself: the digest is a pure function of exactly that canonical form,
  and its compression to 128 bits is irrelevant to the store's semantics.
* sqlite rows are Lean structures, a table is a `List` of rows in insertion
  order; `UPDATE ... WHERE` is a `List.map` guarded on the key, `INSERT` is an
  append.  The `ensure_tables_exist` guard at the top of each store operation
  is the explicit `tablesOk : Bool` argument (operations return `false` and
  leave the state unchanged when it is `false`).
* Handler exceptions are `Except String` values; numeric interpolation inside
  human-readable log/reason strings is elided (the descriptive text is kept).
-/

namespace RaspiDoctor

/-- A Python value stored in a pattern payload: numeric or string. -/
inductive Value where
  | num (q : ℚ)
  | str (s : String)
deriving DecidableEq, Repr

/-- `isinstance(v, (int, float))`. -/
def Value.isNumeric : Value → Bool
  | .num _ => true
  | .str _ => false

/-- A Python object passed to `calculate_similarity`: a dict or anything else
(the code only asks `isinstance(x, dict)`). -/
inductive PyObj where
  | dict (entries : List (String × Value))
  | other
deriving DecidableEq, Repr

namespace Dict

/-- First-match lookup, `d[k]` on a dict with unique keys. -/
def lookup (d : List (String × Value)) (k : String) : Option Value :=
  (d.find? (fun p => p.1 = k)).map (·.2)

/-- `set(d.keys())`. -/
def keySet (d : List (String × Value)) : Finset String :=
  (d.map Prod.fst).toFinset

theorem lookup_isSome_of_mem_keySet {d : List (String × Value)} {k : String}
    (h : k ∈ keySet d) : ∃ v, lookup d k = some v := by
  simp only [keySet, List.mem_toFinset, List.mem_map] at h
  obtain ⟨p, hp, rfl⟩ := h
  have hfind : (d.find? (fun q => q.1 = p.1)).isSome := by
    apply List.find?_isSome.mpr
    exact ⟨p, hp, by simp⟩
  obtain ⟨q, hq⟩ := Option.isSome_iff_exists.mp hfind
  exact ⟨q.2, by simp [lookup, hq]⟩

end Dict

/-- The per-key contribution inside `calculate_similarity`'s loop:
`1.0` on equality, the relative-distance score for unequal numerics with a
positive max of absolute values, `0` otherwise. -/
def simContrib (v1 v2 : Value) : ℚ :=
  if v1 = v2 then 1
  else
    match v1, v2 with
    | .num a, .num b =>
        let maxVal := max |a| |b|
        if 0 < maxVal then 1 - |a - b| / maxVal else 0
    | _, _ => 0

/-- Contribution at a shared key, reading both dicts. -/
def simContribAt (d1 d2 : List (String × Value)) (k : String) : ℚ :=
  match Dict.lookup d1 k, Dict.lookup d2 k with
  | some v1, some v2 => simContrib v1 v2
  | _, _ => 0

/-- `KnowledgeBase.calculate_similarity` (enhanced_doctor.py lines 277-297):
returns `0` unless both arguments are dicts, `0` when the key sets are
disjoint, otherwise the average over the shared keys of `simContrib`. -/
def calculate_similarity : PyObj → PyObj → ℚ
  | .dict d1, .dict d2 =>
      if Dict.keySet d1 ∩ Dict.keySet d2 = ∅ then 0
      else (∑ k ∈ Dict.keySet d1 ∩ Dict.keySet d2, simContribAt d1 d2 k) /
        (Dict.keySet d1 ∩ Dict.keySet d2).card
  | .dict _, .other => 0
  | .other, _ => 0

theorem simContrib_comm (v1 v2 : Value) : simContrib v1 v2 = simContrib v2 v1 := by
  unfold simContrib
  rcases eq_or_ne v1 v2 with h | h
  · simp [h]
  · rw [if_neg h, if_neg (Ne.symm h)]
    cases v1 with
    | num a =>
        cases v2 with
        | num b => simp only [max_comm |a| |b|, abs_sub_comm a b]
        | str s => rfl
    | str s => cases v2 <;> rfl

theorem simContrib_le_one (v1 v2 : Value) : simContrib v1 v2 ≤ 1 := by
  unfold simContrib
  rcases eq_or_ne v1 v2 with h | h
  · simp [h]
  · rw [if_neg h]
    cases v1 with
    | num a =>
        cases v2 with
        | num b =>
            simp only
            by_cases hm : 0 < max |a| |b|
            · rw [if_pos hm]
              have : 0 ≤ |a - b| / max |a| |b| := by positivity
              linarith
            · rw [if_neg hm]; norm_num
        | str s => norm_num
    | str s => cases v2 <;> norm_num

theorem neg_one_le_simContrib (v1 v2 : Value) : -1 ≤ simContrib v1 v2 := by
  unfold simContrib
  rcases eq_or_ne v1 v2 with h | h
  · simp [h]
  · rw [if_neg h]
    cases v1 with
    | num a =>
        cases v2 with
        | num b =>
            simp only
            by_cases hm : 0 < max |a| |b|
            · rw [if_pos hm]
              have habs : |a - b| ≤ 2 * max |a| |b| := by
                have h1 : |a - b| ≤ |a| + |b| := abs_sub a b
                have h2 : |a| ≤ max |a| |b| := le_max_left _ _
                have h3 : |b| ≤ max |a| |b| := le_max_right _ _
                linarith
              have hdiv : |a - b| / max |a| |b| ≤ 2 := (div_le_iff₀ hm).mpr (by linarith)
              linarith
            · rw [if_neg hm]; norm_num
        | str s => norm_num
    | str s => cases v2 <;> norm_num

theorem simContribAt_comm (d1 d2 : List (String × Value)) (k : String) :
    simContribAt d1 d2 k = simContribAt d2 d1 k := by
  unfold simContribAt
  cases Dict.lookup d1 k <;> cases Dict.lookup d2 k <;> simp [simContrib_comm]

theorem simContribAt_le_one (d1 d2 : List (String × Value)) (k : String) :
    simContribAt d1 d2 k ≤ 1 := by
  unfold simContribAt
  cases Dict.lookup d1 k <;> cases Dict.lookup d2 k <;>
    simp [simContrib_le_one]

theorem neg_one_le_simContribAt (d1 d2 : List (String × Value)) (k : String) :
    -1 ≤ simContribAt d1 d2 k := by
  unfold simContribAt
  cases Dict.lookup d1 k <;> cases Dict.lookup d2 k <;>
    simp [neg_one_le_simContrib]

theorem calculate_similarity_comm (a b : PyObj) :
    calculate_similarity a b = calculate_similarity b a := by
  cases a with
  | other => cases b <;> rfl
  | dict d1 =>
      cases b with
      | other => rfl
      | dict d2 =>
          simp only [calculate_similarity]
          have hsum :
              ∑ k ∈ Dict.keySet d2 ∩ Dict.keySet d1, simContribAt d1 d2 k =
              ∑ k ∈ Dict.keySet d2 ∩ Dict.keySet d1, simContribAt d2 d1 k :=
            Finset.sum_congr rfl fun k _ => simContribAt_comm d1 d2 k
          rw [Finset.inter_comm, hsum]

theorem calculate_similarity_le_one (a b : PyObj) : calculate_similarity a b ≤ 1 := by
  cases a with
  | other => cases b <;> norm_num [calculate_similarity]
  | dict d1 =>
      cases b with
      | other => norm_num [calculate_similarity]
      | dict d2 =>
          simp only [calculate_similarity]
          by_cases hK : Dict.keySet d1 ∩ Dict.keySet d2 = ∅
          · simp [hK]
          · rw [if_neg hK]
            set K := Dict.keySet d1 ∩ Dict.keySet d2 with hKdef
            have hcard : 0 < (K.card : ℚ) := by
              have : 0 < K.card :=
                Finset.card_pos.mpr (Finset.nonempty_iff_ne_empty.mpr hK)
              exact_mod_cast this
            rw [div_le_one hcard]
            calc ∑ k ∈ K, simContribAt d1 d2 k
                ≤ ∑ _k ∈ K, (1 : ℚ) :=
                  Finset.sum_le_sum fun k _ => simContribAt_le_one d1 d2 k
              _ = (K.card : ℚ) := by simp

theorem neg_one_le_calculate_similarity (a b : PyObj) :
    -1 ≤ calculate_similarity a b := by
  cases a with
  | other => cases b <;> norm_num [calculate_similarity]
  | dict d1 =>
      cases b with
      | other => norm_num [calculate_similarity]
      | dict d2 =>
          simp only [calculate_similarity]
          by_cases hK : Dict.keySet d1 ∩ Dict.keySet d2 = ∅
          · simp [hK]
          · rw [if_neg hK]
            set K := Dict.keySet d1 ∩ Dict.keySet d2 with hKdef
            have hcard : 0 < (K.card : ℚ) := by
              have : 0 < K.card :=
                Finset.card_pos.mpr (Finset.nonempty_iff_ne_empty.mpr hK)
              exact_mod_cast this
            rw [le_div_iff₀ hcard]
            calc (-1 : ℚ) * K.card = ∑ _k ∈ K, (-1 : ℚ) := by
                  simp [mul_comm]
              _ ≤ ∑ k ∈ K, simContribAt d1 d2 k :=
                  Finset.sum_le_sum fun k _ => neg_one_le_simContribAt d1 d2 k

/-- C1, counterexample: on the concrete pair `{"x": 1}` and `{"x": -1}` the
similarity score is negative (it evaluates to `-1`), so the claimed bound
`score ∈ [0,1]` is false as stated. -/
theorem C1_counterexample :
    calculate_similarity (PyObj.dict [("x", Value.num 1)])
      (PyObj.dict [("x", Value.num (-1))]) < 0 := by
  norm_num [calculate_similarity, Dict.keySet, simContribAt, Dict.lookup,
    simContrib, List.find?]

/-- C1, amended: `calculate_similarity` is symmetric, and the score lies in
`[-1, 1]` (the lower bound `0` of the original claim fails when shared numeric
values have opposite signs; `1` remains a correct upper bound). -/
theorem C1_similarity_symm_bounded (a b : PyObj) :
    calculate_similarity a b = calculate_similarity b a ∧
    -1 ≤ calculate_similarity a b ∧ calculate_similarity a b ≤ 1 :=
  ⟨calculate_similarity_comm a b, neg_one_le_calculate_similarity a b,
    calculate_similarity_le_one a b⟩

/-! ## Health snapshots (the fields the core reads) -/

/-- `health_data['cpu']` (the fields consumed by the core). -/
structure CpuInfo where
  percent : ℚ
  load_15min : ℚ
  temperature : ℚ
deriving DecidableEq, Repr

/-- `health_data['memory']`. -/
structure MemoryInfo where
  percent : ℚ
deriving DecidableEq, Repr

/-- `health_data['disk']`. -/
structure DiskInfo where
  percent : ℚ
deriving DecidableEq, Repr

/-- `health_data['services']`. -/
structure ServicesInfo where
  failed_count : ℚ
deriving DecidableEq, Repr

/-- `health_data['security']`. -/
structure SecurityInfo where
  failed_logins : ℚ
deriving DecidableEq, Repr

/-- `health_data['network']`. -/
structure NetworkInfo where
  packet_loss_percent : ℚ
deriving DecidableEq, Repr

/-- One cycle's health snapshot, restricted to the scalar fields the decision
engine and the improvement formula read. -/
structure Health where
  cpu : CpuInfo
  memory : MemoryInfo
  disk : DiskInfo
  services : ServicesInfo
  security : SecurityInfo
  network : NetworkInfo
deriving DecidableEq, Repr

/-! ## Canonicalization and the pattern hash

`json.dumps(pattern_data, sort_keys=True)` serializes the payload with its
keys in sorted order; `hashlib.md5(...)` digests that canonical string.  The
digest is modelled as the keys-sorted entry list itself. -/

/-- Key ordering on dict entries, for `sort_keys=True`. -/
def keyLe (p q : String × Value) : Prop := p.1 ≤ q.1

instance : DecidableRel keyLe := fun p q => inferInstanceAs (Decidable (p.1 ≤ q.1))

instance : IsTotal (String × Value) keyLe := ⟨fun a b => le_total a.1 b.1⟩

instance : IsTrans (String × Value) keyLe := ⟨fun _ _ _ => le_trans⟩

/-- `json.dumps(data, sort_keys=True)`: the entries reordered by key. -/
def canonicalize (data : List (String × Value)) : List (String × Value) :=
  List.insertionSort keyLe data

/-- `hashlib.md5(json.dumps(pattern_data, sort_keys=True).encode()).hexdigest()`,
with the digest modelled by the canonical form it is computed from. -/
def patternHash (data : List (String × Value)) : List (String × Value) :=
  canonicalize data

/-- Two payloads that are the same dict (same entries, unique keys, any
insertion order) receive the same hash: the digest is a pure function of the
canonicalized data. -/
theorem patternHash_eq_of_perm (d1 d2 : List (String × Value))
    (hperm : d1.Perm d2) (hnodup : (d1.map Prod.fst).Nodup) :
    patternHash d1 = patternHash d2 := by
  have hkeyNe1 : d1.Pairwise (fun p q => p.1 ≠ q.1) :=
    (List.pairwise_map.mp hnodup)
  have hsymmNe : Symmetric (fun p q : String × Value => p.1 ≠ q.1) :=
    fun _ _ h => Ne.symm h
  have hcperm1 : (canonicalize d1).Perm d1 := List.perm_insertionSort keyLe d1
  have hcperm2 : (canonicalize d2).Perm d2 := List.perm_insertionSort keyLe d2
  have hsorted1 : List.Sorted keyLe (canonicalize d1) := List.sorted_insertionSort keyLe d1
  have hsorted2 : List.Sorted keyLe (canonicalize d2) := List.sorted_insertionSort keyLe d2
  have hne1 : (canonicalize d1).Pairwise (fun p q => p.1 ≠ q.1) :=
    (hcperm1.pairwise_iff (fun h => hsymmNe h)).mpr hkeyNe1
  have hne2 : (canonicalize d2).Pairwise (fun p q => p.1 ≠ q.1) := by
    have hkeyNe2 : d2.Pairwise (fun p q => p.1 ≠ q.1) :=
      (hperm.pairwise_iff (fun h => hsymmNe h)).mp hkeyNe1
    exact (hcperm2.pairwise_iff (fun h => hsymmNe h)).mpr hkeyNe2
  have hlt1 : (canonicalize d1).Pairwise (fun p q => p.1 < q.1) := by
    have := hsorted1.and hne1
    exact this.imp fun h => lt_of_le_of_ne h.1 h.2
  have hlt2 : (canonicalize d2).Pairwise (fun p q => p.1 < q.1) := by
    have := hsorted2.and hne2
    exact this.imp fun h => lt_of_le_of_ne h.1 h.2
  haveI : IsAntisymm (String × Value) (fun p q => p.1 < q.1) :=
    ⟨fun a b hab hba => absurd (lt_trans hab hba) (lt_irrefl _)⟩
  have hp : (canonicalize d1).Perm (canonicalize d2) :=
    hcperm1.trans (hperm.trans hcperm2.symm)
  exact List.eq_of_perm_of_sorted hp hlt1 hlt2

/-! ## The knowledge store (sqlite tables as lists of rows) -/

/-- A row of `system_patterns` (schema at enhanced_doctor.py lines 66-80). -/
structure PatternRow where
  pattern_hash : List (String × Value)
  pattern_type : String
  pattern_data : List (String × Value)
  first_seen : ℚ
  last_seen : ℚ
  occurrence_count : ℕ
  severity : ℚ
  confidence : ℚ
  solution : String
  success_rate : ℚ
deriving DecidableEq, Repr

/-- A row of `action_outcomes` (schema at lines 82-94); `system_state_hash`
is the md5 of the health snapshot, modelled by the snapshot itself. -/
structure OutcomeRow where
  action_type : String
  target : String
  reason : String
  result : String
  success : Bool
  timestamp : ℚ
  system_state_hash : Health
  improvement : ℚ
deriving DecidableEq, Repr

/-- A row of `long_term_metrics` (schema at lines 97-105). -/
structure MetricRow where
  metric_name : String
  metric_value : ℚ
  timestamp : ℚ
  context : Option String
deriving DecidableEq, Repr

/-- The three durable tables of `KnowledgeBase`, rows in insertion order. -/
structure KBState where
  system_patterns : List PatternRow
  action_outcomes : List OutcomeRow
  long_term_metrics : List MetricRow
deriving DecidableEq, Repr

/-- `KnowledgeBase.store_pattern` (lines 165-205): hash the canonicalized
payload; if a row with that hash exists, bump `occurrence_count` and refresh
`last_seen`; otherwise insert a fresh row with `occurrence_count = 1` and
`success_rate = 0.0`.  Returns the `True`/`False` status and the new state. -/
def store_pattern (tablesOk : Bool) (ptype : String)
    (data : List (String × Value)) (severity confidence : ℚ) (solution : String)
    (now : ℚ) (st : KBState) : Bool × KBState :=
  if tablesOk = false then (false, st)
  else
    if (st.system_patterns.find?
        (fun r => r.pattern_hash = patternHash data)).isSome then
      (true, { st with system_patterns :=
        st.system_patterns.map fun r =>
          if r.pattern_hash = patternHash data then
            { r with last_seen := now, occurrence_count := r.occurrence_count + 1 }
          else r })
    else
      (true, { st with system_patterns := st.system_patterns ++
        [{ pattern_hash := patternHash data, pattern_type := ptype,
           pattern_data := data, first_seen := now, last_seen := now,
           occurrence_count := 1, severity := severity,
           confidence := confidence, solution := solution,
           success_rate := 0 }] })

/-- Evaluation of `store_pattern` when the hash is absent: insert branch. -/
theorem store_pattern_insert_eq (ptype : String) (data : List (String × Value))
    (severity confidence : ℚ) (solution : String) (now : ℚ) (st : KBState)
    (h : st.system_patterns.find?
      (fun r => r.pattern_hash = patternHash data) = none) :
    store_pattern true ptype data severity confidence solution now st =
      (true, { st with system_patterns := st.system_patterns ++
        [{ pattern_hash := patternHash data, pattern_type := ptype,
           pattern_data := data, first_seen := now, last_seen := now,
           occurrence_count := 1, severity := severity,
           confidence := confidence, solution := solution,
           success_rate := 0 }] }) := by
  unfold store_pattern
  rw [if_neg (by simp : ¬(true = false)), h]
  simp

/-- Evaluation of `store_pattern` when the hash is present: update branch. -/
theorem store_pattern_update_eq (ptype : String) (data : List (String × Value))
    (severity confidence : ℚ) (solution : String) (now : ℚ) (st : KBState)
    (h : (st.system_patterns.find?
      (fun r => r.pattern_hash = patternHash data)).isSome = true) :
    store_pattern true ptype data severity confidence solution now st =
      (true, { st with system_patterns :=
        st.system_patterns.map fun r =>
          if r.pattern_hash = patternHash data then
            { r with last_seen := now, occurrence_count := r.occurrence_count + 1 }
          else r }) := by
  unfold store_pattern
  rw [if_neg (by simp : ¬(true = false)), if_pos h]

/-- `KnowledgeBase.store_metric` (lines 207-251): append one sample row.
The dict-to-JSON conversion of `context` is modelled by passing the already
serialized `Option String`. -/
def store_metric (tablesOk : Bool) (metric_name : String) (metric_value : ℚ)
    (context : Option String) (now : ℚ) (st : KBState) : Bool × KBState :=
  if tablesOk = false then (false, st)
  else
    (true, { st with long_term_metrics := st.long_term_metrics ++
      [{ metric_name := metric_name, metric_value := metric_value,
         timestamp := now, context := context }] })

/-- `KnowledgeBase.store_action_outcome` (lines 253-275): append one outcome
row.  The call sites in `log_action` omit the `improvement` argument, so they
pass Python's default `0.0` explicitly here. -/
def store_action_outcome (tablesOk : Bool)
    (action_type target reason result : String) (success : Bool)
    (system_state_hash : Health) (improvement : ℚ) (now : ℚ)
    (st : KBState) : Bool × KBState :=
  if tablesOk = false then (false, st)
  else
    (true, { st with action_outcomes := st.action_outcomes ++
      [{ action_type := action_type, target := target, reason := reason,
         result := result, success := success, timestamp := now,
         system_state_hash := system_state_hash,
         improvement := improvement }] })

/-- A knowledge-store mutating operation with its arguments. -/
inductive KBOp where
  | storePattern (ptype : String) (data : List (String × Value))
      (severity confidence : ℚ) (solution : String)
  | storeMetric (name : String) (value : ℚ) (context : Option String)
  | storeOutcome (action_type target reason result : String) (success : Bool)
      (hash : Health) (improvement : ℚ)

/-- Dispatch a store operation to its implementation. -/
def applyOp (op : KBOp) (tablesOk : Bool) (now : ℚ) (st : KBState) :
    Bool × KBState :=
  match op with
  | .storePattern pt d sev conf sol => store_pattern tablesOk pt d sev conf sol now st
  | .storeMetric n v c => store_metric tablesOk n v c now st
  | .storeOutcome a t r res s h imp =>
      store_action_outcome tablesOk a t r res s h imp now st

/-- C7: every knowledge-store operation — pattern upsert, metric append,
outcome append, with any arguments, whether or not the tables check passes —
keeps every pre-existing pattern row in place with a non-decreasing
`occurrence_count`, and only ever appends to the action-outcome and metric
tables (never updates or deletes their rows). -/
theorem C7_store_invariants (op : KBOp) (tablesOk : Bool) (now : ℚ) (st : KBState) :
    st.system_patterns.length ≤
      ((applyOp op tablesOk now st).2).system_patterns.length ∧
    (∀ i (h1 : i < st.system_patterns.length)
        (h2 : i < ((applyOp op tablesOk now st).2).system_patterns.length),
      (st.system_patterns.get ⟨i, h1⟩).occurrence_count ≤
        (((applyOp op tablesOk now st).2).system_patterns.get ⟨i, h2⟩).occurrence_count) ∧
    (∃ tail, ((applyOp op tablesOk now st).2).action_outcomes =
      st.action_outcomes ++ tail) ∧
    (∃ tail, ((applyOp op tablesOk now st).2).long_term_metrics =
      st.long_term_metrics ++ tail) := by
  rcases op with ⟨pt, d, sev, conf, sol⟩ | ⟨n, v, c⟩ | ⟨a, t, r, res, s, h, imp⟩ <;>
    cases tablesOk
  case storePattern.false =>
    refine ⟨le_refl _, fun i h1 h2 => le_refl _, ⟨[], by simp [applyOp, store_pattern]⟩,
      ⟨[], by simp [applyOp, store_pattern]⟩⟩
  case storePattern.true =>
    by_cases hmem :
        (st.system_patterns.find? (fun r => r.pattern_hash = patternHash d)).isSome
    · have hst : ((applyOp (KBOp.storePattern pt d sev conf sol) true now st).2) =
          { st with system_patterns := st.system_patterns.map fun r =>
              if r.pattern_hash = patternHash d then
                { r with last_seen := now,
                         occurrence_count := r.occurrence_count + 1 }
              else r } := by
        simp [applyOp, store_pattern, hmem]
      rw [hst]
      refine ⟨by simp, fun i h1 h2 => ?_, ⟨[], by simp⟩, ⟨[], by simp⟩⟩
      simp only [List.get_eq_getElem, List.getElem_map]
      split
      · exact Nat.le_succ _
      · exact le_refl _
    · have hst : ((applyOp (KBOp.storePattern pt d sev conf sol) true now st).2) =
          { st with system_patterns := st.system_patterns ++
              [{ pattern_hash := patternHash d, pattern_type := pt,
                 pattern_data := d, first_seen := now, last_seen := now,
                 occurrence_count := 1, severity := sev, confidence := conf,
                 solution := sol, success_rate := 0 }] } := by
        simp [applyOp, store_pattern, hmem]
      rw [hst]
      refine ⟨by simp, fun i h1 h2 => ?_, ⟨[], by simp⟩, ⟨[], by simp⟩⟩
      simp only [List.get_eq_getElem]
      rw [List.getElem_append_left h1]
  case storeMetric.false =>
    refine ⟨le_refl _, fun i h1 h2 => le_refl _, ⟨[], by simp [applyOp, store_metric]⟩,
      ⟨[], by simp [applyOp, store_metric]⟩⟩
  case storeMetric.true =>
    simp only [applyOp, store_metric]
    exact ⟨le_refl _, fun i h1 h2 => le_refl _, ⟨[], by simp⟩, ⟨_, rfl⟩⟩
  case storeOutcome.false =>
    refine ⟨le_refl _, fun i h1 h2 => le_refl _,
      ⟨[], by simp [applyOp, store_action_outcome]⟩,
      ⟨[], by simp [applyOp, store_action_outcome]⟩⟩
  case storeOutcome.true =>
    simp only [applyOp, store_action_outcome]
    exact ⟨le_refl _, fun i h1 h2 => le_refl _, ⟨_, rfl⟩, ⟨[], by simp⟩⟩

/-- A concrete pattern row: the payload `{"cpu": 90}` first seen at time `0`. -/
def kbRow0 : PatternRow :=
  { pattern_hash := patternHash [("cpu", Value.num 90)],
    pattern_type := "system_state",
    pattern_data := [("cpu", Value.num 90)],
    first_seen := 0, last_seen := 0, occurrence_count := 1,
    severity := 1/2, confidence := 1/2, solution := "",
    success_rate := 0 }

/-- A concrete store holding just `kbRow0`. -/
def kbSt0 : KBState :=
  { system_patterns := [kbRow0], action_outcomes := [], long_term_metrics := [] }

/-- Witness for C7: re-storing `{"cpu": 90}` into the store that already holds
it, checked at row index `0`. -/
theorem C7_store_invariants_witness :
    (kbSt0.system_patterns.get ⟨0, by decide⟩).occurrence_count ≤
      (((applyOp (KBOp.storePattern "system_state" [("cpu", Value.num 90)]
          (1/2) (1/2) "") true 1 kbSt0).2).system_patterns.get
        ⟨0, by decide⟩).occurrence_count :=
  (C7_store_invariants
    (KBOp.storePattern "system_state" [("cpu", Value.num 90)] (1/2) (1/2) "")
    true 1 kbSt0).2.1 0 (by decide) (by decide)

/-- C3: storing a payload `data` twice into a store where its hash is absent
leaves exactly one row for that hash: the first call inserts it with
`occurrence_count = 1` and `first_seen = last_seen = t1`, the second call
increments `occurrence_count` to `2` and refreshes `last_seen` to `t2`
without inserting a second row; and the hash is a pure function of the
keys-sorted canonicalization of the payload. -/
theorem C3_store_pattern_twice (ptype : String) (data : List (String × Value))
    (sev conf : ℚ) (sol : String) (t1 t2 : ℚ) (st : KBState)
    (habsent : ∀ r ∈ st.system_patterns, r.pattern_hash ≠ patternHash data) :
    (store_pattern true ptype data sev conf sol t1 st).1 = true ∧
    (store_pattern true ptype data sev conf sol t2
      (store_pattern true ptype data sev conf sol t1 st).2).1 = true ∧
    ((store_pattern true ptype data sev conf sol t1 st).2).system_patterns.filter
        (fun r => r.pattern_hash = patternHash data) =
      [{ pattern_hash := patternHash data, pattern_type := ptype,
         pattern_data := data, first_seen := t1, last_seen := t1,
         occurrence_count := 1, severity := sev, confidence := conf,
         solution := sol, success_rate := 0 }] ∧
    ((store_pattern true ptype data sev conf sol t2
        (store_pattern true ptype data sev conf sol t1 st).2).2).system_patterns.filter
        (fun r => r.pattern_hash = patternHash data) =
      [{ pattern_hash := patternHash data, pattern_type := ptype,
         pattern_data := data, first_seen := t1, last_seen := t2,
         occurrence_count := 2, severity := sev, confidence := conf,
         solution := sol, success_rate := 0 }] ∧
    ((store_pattern true ptype data sev conf sol t2
        (store_pattern true ptype data sev conf sol t1 st).2).2).system_patterns.length =
      ((store_pattern true ptype data sev conf sol t1 st).2).system_patterns.length ∧
    (∀ d1 d2 : List (String × Value), d1.Perm d2 → (d1.map Prod.fst).Nodup →
      patternHash d1 = patternHash d2) := by
  have hfind1 : st.system_patterns.find?
      (fun r => r.pattern_hash = patternHash data) = none :=
    List.find?_eq_none.mpr (fun r hr => by simpa using habsent r hr)
  have heq1 := store_pattern_insert_eq ptype data sev conf sol t1 st hfind1
  have hst1 : (store_pattern true ptype data sev conf sol t1 st).2 =
      { st with system_patterns := st.system_patterns ++
        [{ pattern_hash := patternHash data, pattern_type := ptype,
           pattern_data := data, first_seen := t1, last_seen := t1,
           occurrence_count := 1, severity := sev, confidence := conf,
           solution := sol, success_rate := 0 }] } := by
    rw [heq1]
  have hok1 : (store_pattern true ptype data sev conf sol t1 st).1 = true := by
    rw [heq1]
  have hfind2 : (((store_pattern true ptype data sev conf sol t1 st).2).system_patterns.find?
      (fun r => r.pattern_hash = patternHash data)).isSome = true := by
    rw [hst1]
    refine List.find?_isSome.mpr ⟨_, List.mem_append_right _ (List.mem_singleton.mpr rfl), ?_⟩
    simp
  have heq2 := store_pattern_update_eq ptype data sev conf sol t2
    (store_pattern true ptype data sev conf sol t1 st).2 hfind2
  have hok2 : (store_pattern true ptype data sev conf sol t2
      (store_pattern true ptype data sev conf sol t1 st).2).1 = true := by
    rw [heq2]
  have hmapfix : st.system_patterns.map (fun r =>
      if r.pattern_hash = patternHash data then
        { r with last_seen := t2, occurrence_count := r.occurrence_count + 1 }
      else r) = st.system_patterns := by
    conv_rhs => rw [← List.map_id st.system_patterns]
    refine List.map_congr_left fun r hr => ?_
    rw [if_neg (habsent r hr)]
    rfl
  have hst2 : (store_pattern true ptype data sev conf sol t2
      (store_pattern true ptype data sev conf sol t1 st).2).2 =
      { st with system_patterns := st.system_patterns ++
        [{ pattern_hash := patternHash data, pattern_type := ptype,
           pattern_data := data, first_seen := t1, last_seen := t2,
           occurrence_count := 2, severity := sev, confidence := conf,
           solution := sol, success_rate := 0 }] } := by
    rw [heq2, hst1]
    simp [List.map_append, hmapfix]
  have hfilter_base : st.system_patterns.filter
      (fun r => r.pattern_hash = patternHash data) = [] :=
    List.filter_eq_nil_iff.mpr (fun r hr => by simpa using habsent r hr)
  refine ⟨hok1, hok2, ?_, ?_, ?_, fun d1 d2 hperm hnodup => patternHash_eq_of_perm d1 d2 hperm hnodup⟩
  · rw [hst1]
    simp [List.filter_append, hfilter_base]
  · rw [hst2]
    simp [List.filter_append, hfilter_base]
  · rw [hst2, hst1]
    simp

/-- Witness for C3: storing `{"cpu": 90}` twice into the empty store, at times
`0` and `1`; both calls report success. -/
theorem C3_store_pattern_twice_witness :
    (store_pattern true "system_state" [("cpu", Value.num 90)] (1/2) (1/2) "" 0
      ⟨[], [], []⟩).1 = true ∧
    (store_pattern true "system_state" [("cpu", Value.num 90)] (1/2) (1/2) "" 1
      (store_pattern true "system_state" [("cpu", Value.num 90)] (1/2) (1/2) "" 0
        ⟨[], [], []⟩).2).1 = true := by
  have h := C3_store_pattern_twice "system_state" [("cpu", Value.num 90)]
    (1/2) (1/2) "" 0 1 ⟨[], [], []⟩ (by simp)
  exact ⟨h.1, h.2.1⟩

/-- C10: when the payload's hash is already present, `store_pattern` changes
only that row's `last_seen` and `occurrence_count`; every other field of every
row is untouched, rows with a different hash are completely unchanged, the
outcome and metric tables are unchanged, and the `severity`, `confidence` and
`solution` arguments of the call are ignored. -/
theorem C10_store_pattern_update_frame (ptype : String)
    (data : List (String × Value)) (sev conf : ℚ) (sol : String) (now : ℚ)
    (st : KBState)
    (hexists : ∃ r ∈ st.system_patterns, r.pattern_hash = patternHash data) :
    ((store_pattern true ptype data sev conf sol now st).2).system_patterns.length =
      st.system_patterns.length ∧
    (∀ i (h1 : i < st.system_patterns.length)
        (h2 : i < ((store_pattern true ptype data sev conf sol now st).2).system_patterns.length),
      ((((store_pattern true ptype data sev conf sol now st).2).system_patterns.get
          ⟨i, h2⟩).pattern_hash =
        (st.system_patterns.get ⟨i, h1⟩).pattern_hash ∧
       (((store_pattern true ptype data sev conf sol now st).2).system_patterns.get
          ⟨i, h2⟩).pattern_type =
        (st.system_patterns.get ⟨i, h1⟩).pattern_type ∧
       (((store_pattern true ptype data sev conf sol now st).2).system_patterns.get
          ⟨i, h2⟩).pattern_data =
        (st.system_patterns.get ⟨i, h1⟩).pattern_data ∧
       (((store_pattern true ptype data sev conf sol now st).2).system_patterns.get
          ⟨i, h2⟩).first_seen =
        (st.system_patterns.get ⟨i, h1⟩).first_seen ∧
       (((store_pattern true ptype data sev conf sol now st).2).system_patterns.get
          ⟨i, h2⟩).severity =
        (st.system_patterns.get ⟨i, h1⟩).severity ∧
       (((store_pattern true ptype data sev conf sol now st).2).system_patterns.get
          ⟨i, h2⟩).confidence =
        (st.system_patterns.get ⟨i, h1⟩).confidence ∧
       (((store_pattern true ptype data sev conf sol now st).2).system_patterns.get
          ⟨i, h2⟩).solution =
        (st.system_patterns.get ⟨i, h1⟩).solution ∧
       (((store_pattern true ptype data sev conf sol now st).2).system_patterns.get
          ⟨i, h2⟩).success_rate =
        (st.system_patterns.get ⟨i, h1⟩).success_rate) ∧
      ((st.system_patterns.get ⟨i, h1⟩).pattern_hash = patternHash data →
        (((store_pattern true ptype data sev conf sol now st).2).system_patterns.get
            ⟨i, h2⟩).occurrence_count =
          (st.system_patterns.get ⟨i, h1⟩).occurrence_count + 1 ∧
        (((store_pattern true ptype data sev conf sol now st).2).system_patterns.get
            ⟨i, h2⟩).last_seen = now) ∧
      ((st.system_patterns.get ⟨i, h1⟩).pattern_hash ≠ patternHash data →
        ((store_pattern true ptype data sev conf sol now st).2).system_patterns.get
            ⟨i, h2⟩ =
          st.system_patterns.get ⟨i, h1⟩)) ∧
    ((store_pattern true ptype data sev conf sol now st).2).action_outcomes =
      st.action_outcomes ∧
    ((store_pattern true ptype data sev conf sol now st).2).long_term_metrics =
      st.long_term_metrics ∧
    (∀ sev' conf' sol',
      (store_pattern true ptype data sev' conf' sol' now st).2 =
      (store_pattern true ptype data sev conf sol now st).2) := by
  obtain ⟨r0, hr0mem, hr0hash⟩ := hexists
  have hfind :
      (st.system_patterns.find?
        (fun r => r.pattern_hash = patternHash data)).isSome = true :=
    List.find?_isSome.mpr ⟨r0, hr0mem, by simpa using hr0hash⟩
  have hupd : ∀ sev'' conf'' sol'',
      (store_pattern true ptype data sev'' conf'' sol'' now st).2 =
      { st with system_patterns := st.system_patterns.map fun r =>
          if r.pattern_hash = patternHash data then
            { r with last_seen := now,
                     occurrence_count := r.occurrence_count + 1 }
          else r } := by
    intro sev'' conf'' sol''
    rw [store_pattern_update_eq ptype data sev'' conf'' sol'' now st hfind]
  refine ⟨?_, ?_, ?_, ?_, ?_⟩
  · rw [hupd sev conf sol]; simp
  · intro i h1 h2
    revert h2
    rw [hupd sev conf sol]
    intro h2
    simp only [List.get_eq_getElem, List.getElem_map]
    split
    · exact ⟨⟨rfl, rfl, rfl, rfl, rfl, rfl, rfl, rfl⟩, fun _ => ⟨rfl, rfl⟩,
        fun hne => absurd (by assumption) hne⟩
    · exact ⟨⟨rfl, rfl, rfl, rfl, rfl, rfl, rfl, rfl⟩,
        fun heq => absurd heq (by assumption), fun _ => rfl⟩
  · rw [hupd sev conf sol]
  · rw [hupd sev conf sol]
  · intro sev' conf' sol'
    rw [hupd sev conf sol, hupd sev' conf' sol']

/-- Witness for C10: updating the payload already present in `kbSt0` leaves the
table size, the outcome table and the metric table unchanged. -/
theorem C10_store_pattern_update_frame_witness :
    ((store_pattern true "system_state" [("cpu", Value.num 90)] (9/10) (9/10)
      "clear_cache" 5 kbSt0).2).system_patterns.length =
      kbSt0.system_patterns.length := by
  have h := C10_store_pattern_update_frame "system_state" [("cpu", Value.num 90)]
    (9/10) (9/10) "clear_cache" 5 kbSt0 ⟨kbRow0, by simp [kbSt0], rfl⟩
  exact h.1

/-! ## The improvement formula (`AutonomousDoctor.calculate_improvement`) -/

/-- One weighted term of the loop body at lines 1061-1084: a factor
contributes `weight * (prev - curr) / prev * 100` only when its previous
value is strictly positive. -/
def improvementTerm (weight prev curr : ℚ) : ℚ :=
  if 0 < prev then weight * (prev - curr) / prev * 100 else 0

/-- `AutonomousDoctor.calculate_improvement` (lines 1046-1086): weighted
relative change over cpu% (0.25), memory% (0.25), load_15min (0.20),
disk% (0.15) and the failed-service count (0.15); `0` when either snapshot
is missing. -/
def calculate_improvement (previous current : Option Health) : ℚ :=
  match previous, current with
  | some p, some c =>
      improvementTerm (1/4) p.cpu.percent c.cpu.percent
      + improvementTerm (1/4) p.memory.percent c.memory.percent
      + improvementTerm (1/5) p.cpu.load_15min c.cpu.load_15min
      + improvementTerm (3/20) p.disk.percent c.disk.percent
      + improvementTerm (3/20) p.services.failed_count c.services.failed_count
  | _, _ => 0

/-- The claim's formula, stated from the spec's words: the sum over the five
factors of `weight × (previous − current) / previous × 100`, where a term
whose previous value is `0` contributes `0` (no division by zero). -/
def improvementClaim (p c : Health) : ℚ :=
  (if p.cpu.percent = 0 then 0
    else 1/4 * (p.cpu.percent - c.cpu.percent) / p.cpu.percent * 100)
  + (if p.memory.percent = 0 then 0
    else 1/4 * (p.memory.percent - c.memory.percent) / p.memory.percent * 100)
  + (if p.cpu.load_15min = 0 then 0
    else 1/5 * (p.cpu.load_15min - c.cpu.load_15min) / p.cpu.load_15min * 100)
  + (if p.disk.percent = 0 then 0
    else 3/20 * (p.disk.percent - c.disk.percent) / p.disk.percent * 100)
  + (if p.services.failed_count = 0 then 0
    else 3/20 * (p.services.failed_count - c.services.failed_count) /
      p.services.failed_count * 100)

theorem improvementTerm_eq_claim (w p c : ℚ) (hp : 0 ≤ p) :
    improvementTerm w p c = if p = 0 then 0 else w * (p - c) / p * 100 := by
  unfold improvementTerm
  rcases lt_or_eq_of_le hp with hlt | heq
  · rw [if_pos hlt, if_neg hlt.ne']
  · rw [if_neg (by rw [← heq]; exact lt_irrefl 0), if_pos heq.symm]

/-- The spec's improvement example, previous side: disk at 90%, every other
factor at 50 (failure counts and security fields 0). -/
def prevSnapshot : Health := ⟨⟨50, 50, 50⟩, ⟨50⟩, ⟨90⟩, ⟨0⟩, ⟨0⟩, ⟨0⟩⟩

/-- The spec's improvement example, current side: disk dropped to 80%,
everything else unchanged. -/
def currSnapshot : Health := ⟨⟨50, 50, 50⟩, ⟨50⟩, ⟨80⟩, ⟨0⟩, ⟨0⟩, ⟨0⟩⟩

/-- C6: on snapshots with non-negative previous readings (all five previous
factors are percentages, a load average or a count), `calculate_improvement`
equals the claim's weighted relative-change formula, each term guarded to
contribute `0` when its previous value is `0`. -/
theorem C6_calculate_improvement (p c : Health)
    (h1 : 0 ≤ p.cpu.percent) (h2 : 0 ≤ p.memory.percent)
    (h3 : 0 ≤ p.cpu.load_15min) (h4 : 0 ≤ p.disk.percent)
    (h5 : 0 ≤ p.services.failed_count) :
    calculate_improvement (some p) (some c) = improvementClaim p c := by
  simp only [calculate_improvement, improvementClaim,
    improvementTerm_eq_claim _ _ _ h1, improvementTerm_eq_claim _ _ _ h2,
    improvementTerm_eq_claim _ _ _ h3, improvementTerm_eq_claim _ _ _ h4,
    improvementTerm_eq_claim _ _ _ h5]

/-- Witness for C6, at the spec's own example: previous disk 90, current 80,
all other factors unchanged; the only surviving term is
`0.15 × (90−80)/90 × 100 = 5/3 ≈ 1.67`. -/
theorem C6_calculate_improvement_witness :
    calculate_improvement (some prevSnapshot) (some currSnapshot) =
      improvementClaim prevSnapshot currSnapshot ∧
    improvementClaim prevSnapshot currSnapshot = 5/3 :=
  ⟨C6_calculate_improvement prevSnapshot currSnapshot (by norm_num [prevSnapshot])
      (by norm_num [prevSnapshot]) (by norm_num [prevSnapshot])
      (by norm_num [prevSnapshot]) (by norm_num [prevSnapshot]),
    by norm_num [improvementClaim, prevSnapshot, currSnapshot]⟩

/-! ## Action logging and per-action statistics -/

/-- The executor's mutable context: the knowledge store plus the text log
file `actions.log` as a list of lines. -/
structure DoctorState where
  kb : KBState
  actions_log : List String
deriving DecidableEq, Repr

/-- The log line built in `log_action`
(`f"[...] {status} - {action}({target}): {reason} - Result: {result}"`),
with the timestamp interpolation elided. -/
def logLine (success : Bool) (action target reason result : String) : String :=
  (if success then "SUCCESS" else "FAILED") ++ " - " ++ action ++ "(" ++
    target ++ "): " ++ reason ++ " - Result: " ++ result

/-- `AutonomousDoctor.log_action` (lines 1353-1369): append a line to the
actions log, then store an outcome row keyed by the hash of the current
health snapshot.  The call to `store_action_outcome` omits the `improvement`
parameter, so Python's default `0.0` is what gets stored. -/
def log_action (action target reason result : String) (success : Bool)
    (health : Health) (now : ℚ) (tablesOk : Bool) (ds : DoctorState) :
    DoctorState :=
  { ds with
    actions_log := ds.actions_log ++ [logLine success action target reason result],
    kb := (store_action_outcome tablesOk action target reason result success
      health 0 now ds.kb).2 }

/-- The aggregate returned by `get_action_success_rate`. -/
structure ActionStats where
  count : ℕ
  success_rate : ℚ
  avg_improvement : ℚ
deriving DecidableEq, Repr

/-- `KnowledgeBase.get_action_success_rate` (lines 361-403): count, average
success and average improvement of the outcomes matching the action type
(and target, when one is given); the neutral default
`{count 0, success_rate 0.5, avg_improvement 0}` when there is no history. -/
def get_action_success_rate (tablesOk : Bool) (action_type : String)
    (target : Option String) (st : KBState) : ActionStats :=
  if tablesOk = false then ⟨0, 1/2, 0⟩
  else
    let rows : List OutcomeRow := match target with
      | some t => st.action_outcomes.filter
          (fun o => o.action_type = action_type ∧ o.target = t)
      | none => st.action_outcomes.filter (fun o => o.action_type = action_type)
    if rows.length = 0 then ⟨0, 1/2, 0⟩
    else ⟨rows.length,
      (rows.map (fun o => if o.success then (1 : ℚ) else 0)).sum / rows.length,
      (rows.map (fun o => o.improvement)).sum / rows.length⟩

/-- C2, evidence: `log_action` stores every outcome with `improvement = 0`
regardless of the snapshots — it never passes an improvement value and
`calculate_improvement` has no caller — so on a fresh store the reported
`avg_improvement` is `0` even though the cycle's computed improvement at the
spec's own example (disk 90 → 80) is `5/3 ≠ 0`. -/
theorem C2_improvement_never_attached (a t r res : String) (succ : Bool)
    (health : Health) (now : ℚ) (st : KBState) (log : List String) :
    (log_action a t r res succ health now true ⟨st, log⟩).kb.action_outcomes =
      st.action_outcomes ++ [⟨a, t, r, res, succ, now, health, 0⟩] ∧
    (get_action_success_rate true a none
        (log_action a t r res succ health now true ⟨⟨[], [], []⟩, []⟩).kb).avg_improvement
      = 0 ∧
    calculate_improvement (some prevSnapshot) (some currSnapshot) = 5/3 := by
  refine ⟨?_, ?_, ?_⟩
  · simp [log_action, store_action_outcome]
  · simp [log_action, store_action_outcome, get_action_success_rate]
  · norm_num [calculate_improvement, improvementTerm, prevSnapshot, currSnapshot]

/-! ## Action execution (`AutonomousDoctor.execute_action`) -/

/-- A recommended action as built by `analyze_system_state`: the dict keys the
executor reads, with `action.get('target', '')`, `action.get('reason', '')`
and `action.get('smart_troubleshooting', False)` defaults baked in at
construction. -/
structure Action where
  action : String
  target : String
  priority : String
  reason : String
  learned_pattern : Bool
  pattern_similarity : Option ℚ
  smart_troubleshooting : Bool
deriving DecidableEq, Repr

/-- The keys of the `action_handlers` dispatch table (lines 1268-1277). -/
def knownActions : List String :=
  ["clear_cache", "throttle_cpu", "clean_logs", "restart_failed_services",
   "optimize_network", "manage_services", "increase_security", "ban_ip"]

/-- `self.actions_enabled.get(key, True)`: first-match lookup in the config's
feature-toggle dict. -/
def lookupFlag (flags : List (String × Bool)) (k : String) : Option Bool :=
  (flags.find? (fun p => p.1 = k)).map (·.2)

/-- `AutonomousDoctor.execute_action` (lines 1262-1292).  The result of
invoking the selected handler (or, for `smart_troubleshooting` actions, the
enhanced restart flow) is the `handlerRun` / `smartRun` argument: `.ok` is a
normal return, `.error` a raised exception.  The `try/except` around the
handler maps an exception to the `Failed to execute ...` text and a failed
`log_action`; a disabled or unknown action type short-circuits without
touching any state. -/
def execute_action (action : Action) (enabled : List (String × Bool))
    (handlerRun : String → Except String String)
    (smartRun : Except String String) (health : Health) (now : ℚ)
    (tablesOk : Bool) (ds : DoctorState) : String × DoctorState :=
  if action.action ∈ knownActions ∧
      (lookupFlag enabled ("auto_" ++ action.action)).getD true = true then
    match (if action.smart_troubleshooting then smartRun
           else handlerRun action.action) with
    | .ok result =>
        (result,
         log_action action.action action.target action.reason result true
           health now tablesOk ds)
    | .error e =>
        ("Failed to execute " ++ action.action ++ ": " ++ e,
         log_action action.action action.target action.reason
           ("Failed to execute " ++ action.action ++ ": " ++ e) false
           health now tablesOk ds)
  else ("Action " ++ action.action ++ " not enabled or not found", ds)

/-- C8: when the selected handler raises (is an `.error`), an enabled known
action is caught locally: `execute_action` returns the
`Failed to execute <action>: <e>` text (it does not re-raise), appends exactly
one failed outcome (`success = false`, the error text as result) through
`log_action`, appends the matching `FAILED` log line, and leaves the pattern
and metric tables untouched — so subsequent actions of the cycle still run. -/
theorem C8_execute_action_catches (action : Action)
    (enabled : List (String × Bool))
    (handlerRun : String → Except String String)
    (smartRun : Except String String) (health : Health) (now : ℚ)
    (st : KBState) (log : List String) (e : String)
    (hraise : (if action.smart_troubleshooting then smartRun
      else handlerRun action.action) = .error e)
    (hknown : action.action ∈ knownActions)
    (henabled : (lookupFlag enabled ("auto_" ++ action.action)).getD true = true) :
    (execute_action action enabled handlerRun smartRun health now true
        ⟨st, log⟩).1 =
      "Failed to execute " ++ action.action ++ ": " ++ e ∧
    ((execute_action action enabled handlerRun smartRun health now true
        ⟨st, log⟩).2).kb.action_outcomes =
      st.action_outcomes ++ [⟨action.action, action.target, action.reason,
        "Failed to execute " ++ action.action ++ ": " ++ e, false, now,
        health, 0⟩] ∧
    ((execute_action action enabled handlerRun smartRun health now true
        ⟨st, log⟩).2).actions_log =
      log ++ [logLine false action.action action.target action.reason
        ("Failed to execute " ++ action.action ++ ": " ++ e)] ∧
    ((execute_action action enabled handlerRun smartRun health now true
        ⟨st, log⟩).2).kb.system_patterns = st.system_patterns ∧
    ((execute_action action enabled handlerRun smartRun health now true
        ⟨st, log⟩).2).kb.long_term_metrics = st.long_term_metrics := by
  have hcond : action.action ∈ knownActions ∧
      (lookupFlag enabled ("auto_" ++ action.action)).getD true = true :=
    ⟨hknown, henabled⟩
  simp only [execute_action, if_pos hcond, hraise]
  simp [log_action, store_action_outcome]

/-- Witness for C8: `clear_cache`, enabled by default (empty config), whose
handler raises `boom`. -/
theorem C8_execute_action_catches_witness :
    (execute_action
        ⟨"clear_cache", "", "medium", "High memory usage", false, none, false⟩
        [] (fun _ => Except.error "boom") (Except.ok "") prevSnapshot 0 true
        ⟨⟨[], [], []⟩, []⟩).1 =
      "Failed to execute " ++ "clear_cache" ++ ": " ++ "boom" :=
  (C8_execute_action_catches
    ⟨"clear_cache", "", "medium", "High memory usage", false, none, false⟩
    [] (fun _ => Except.error "boom") (Except.ok "") prevSnapshot 0
    ⟨[], [], []⟩ [] "boom" rfl (by simp [knownActions]) rfl).1

/-! ## AI-fallback consultation (`AutonomousDoctor.consult_ai`) -/

/-- A decoded `{action, target?, reason}` suggestion. -/
structure Suggestion where
  action : String
  target : String
  reason : String
deriving DecidableEq, Repr

/-- `AutonomousDoctor.consult_ai` (lines 1371-1405), given the outcome of the
HTTP call (`.error` for an unreachable host, timeout or non-2xx status;
`.ok body` for the reply's `response` text) and the two decoding collaborators
(`jsonLoads` for `json.loads`, returning `none` when it raises
`JSONDecodeError`; `findJson` for the `re.search` of a braced fragment).
Every failure path of the Python code returns `None`: the outer `except`
catches network errors and the second `json.loads` failure, and the inner
fallbacks return `None` directly. -/
def consult_ai (net : Except String String)
    (jsonLoads : String → Option Suggestion)
    (findJson : String → Option String) : Option Suggestion :=
  match net with
  | .error _ => none
  | .ok body =>
      match jsonLoads body with
      | some s => some s
      | none =>
          match findJson body with
          | some fragment => jsonLoads fragment
          | none => none

/-- The guard in `run_enhanced` (line 1514):
`if ai_decision and ai_decision.get('action') != 'none'` — the AI action is
executed only when a suggestion was decoded and its action is not `"none"`. -/
def aiBranchExecutes (decision : Option Suggestion) : Bool :=
  match decision with
  | some s => s.action ≠ "none"
  | none => false

/-- The value the claim says gets substituted on failure. -/
def fallbackSuggestion : Suggestion :=
  ⟨"none", "", "fallback unavailable"⟩

/-- C9, counterexample: on a timed-out consultation the code returns `None`,
not the claimed `{action: "none", reason: "fallback unavailable"}` object. -/
theorem C9_counterexample :
    consult_ai (Except.error "connection timeout") (fun _ => none)
        (fun _ => none) = none ∧
    (none : Option Suggestion) ≠ some fallbackSuggestion := by
  exact ⟨rfl, by simp⟩

/-- C9, amended: on every failure of the AI consultation — network error, or
a reply from which neither `json.loads` nor the braced-fragment search can
decode a suggestion — `consult_ai` returns `None` rather than surfacing an
error, and `run_enhanced`'s guard treats `None` exactly like an explicit
`{action: "none"}` suggestion: no AI action is executed. -/
theorem C9_consult_ai_failure (jsonLoads : String → Option Suggestion)
    (findJson : String → Option String) (e body : String)
    (hbody : jsonLoads body = none)
    (hfrag : ∀ fragment, findJson body = some fragment →
      jsonLoads fragment = none) :
    consult_ai (Except.error e) jsonLoads findJson = none ∧
    consult_ai (Except.ok body) jsonLoads findJson = none ∧
    aiBranchExecutes none = false ∧
    aiBranchExecutes (some ⟨"none", "", "fallback unavailable"⟩) = false := by
  refine ⟨rfl, ?_, rfl, by simp [aiBranchExecutes]⟩
  simp only [consult_ai, hbody]
  cases hfind : findJson body with
  | none => rfl
  | some fragment => simpa using hfrag fragment hfind

/-- Witness for C9: a reply whose body decodes to nothing anywhere. -/
theorem C9_consult_ai_failure_witness :
    consult_ai (Except.error "unreachable") (fun _ => none) (fun _ => none)
        = none ∧
    consult_ai (Except.ok "no json here") (fun _ => none) (fun _ => none)
        = none :=
  ⟨(C9_consult_ai_failure (fun _ => none) (fun _ => none) "unreachable"
      "no json here" rfl (fun _ _ => rfl)).1,
   (C9_consult_ai_failure (fun _ => none) (fun _ => none) "unreachable"
      "no json here" rfl (fun _ _ => rfl)).2.1⟩

/-! ## Trend analysis (`KnowledgeBase.get_metric_trend`)

`np.polyfit(x, values, 1)` with `x = np.arange(len(values))` is the degree-1
least-squares fit; it is embedded by its closed-form normal-equation solution,
and proved below to minimize the sum of squared residuals. -/

/-- `Σ i` over `x = 0..n-1`. -/
def sumIdx (n : ℕ) : ℚ := ∑ i ∈ Finset.range n, (i : ℚ)

/-- `Σ i²` over `x = 0..n-1`. -/
def sumIdxSq (n : ℕ) : ℚ := ∑ i ∈ Finset.range n, (i : ℚ) ^ 2

/-- `Σ yᵢ`. -/
def sumVals (l : List ℚ) : ℚ := ∑ i ∈ Finset.range l.length, l.getD i 0

/-- `Σ i·yᵢ`. -/
def sumIdxVals (l : List ℚ) : ℚ :=
  ∑ i ∈ Finset.range l.length, (i : ℚ) * l.getD i 0

/-- The normal-equation denominator `n·Σi² − (Σi)²`. -/
def lsDenom (n : ℕ) : ℚ := n * sumIdxSq n - (sumIdx n) ^ 2

/-- The slope returned by `np.polyfit(x, values, 1)`. -/
def lsSlope (l : List ℚ) : ℚ :=
  (l.length * sumIdxVals l - sumIdx l.length * sumVals l) / lsDenom l.length

/-- The intercept returned by `np.polyfit(x, values, 1)`. -/
def lsIntercept (l : List ℚ) : ℚ :=
  (sumVals l - lsSlope l * sumIdx l.length) / l.length

/-- The least-squares objective: the sum of squared residuals of the line
`x ↦ m·x + c` against the samples. -/
def sse (l : List ℚ) (m c : ℚ) : ℚ :=
  ∑ i ∈ Finset.range l.length, (l.getD i 0 - (m * i + c)) ^ 2

theorem sumIdx_closed (n : ℕ) : sumIdx n = n * (n - 1) / 2 := by
  induction n with
  | zero => simp [sumIdx]
  | succ k ih =>
      rw [sumIdx, Finset.sum_range_succ, ← sumIdx, ih]
      push_cast
      ring

theorem sumIdxSq_closed (n : ℕ) :
    sumIdxSq n = n * (n - 1) * (2 * n - 1) / 6 := by
  induction n with
  | zero => simp [sumIdxSq]
  | succ k ih =>
      rw [sumIdxSq, Finset.sum_range_succ, ← sumIdxSq, ih]
      push_cast
      ring

theorem lsDenom_closed (n : ℕ) :
    lsDenom n = (n : ℚ) ^ 2 * ((n : ℚ) - 1) * ((n : ℚ) + 1) / 12 := by
  rw [lsDenom, sumIdx_closed, sumIdxSq_closed]
  ring

theorem lsDenom_pos (n : ℕ) (hn : 2 ≤ n) : 0 < lsDenom n := by
  rw [lsDenom_closed]
  have h2 : (2 : ℚ) ≤ (n : ℚ) := by exact_mod_cast hn
  have hnum : 0 < (n : ℚ) ^ 2 * ((n : ℚ) - 1) * ((n : ℚ) + 1) := by
    have ha : 0 < (n : ℚ) ^ 2 := by positivity
    have hb : 0 < (n : ℚ) - 1 := by linarith
    have hc : 0 < (n : ℚ) + 1 := by linarith
    exact mul_pos (mul_pos ha hb) hc
  exact div_pos hnum (by norm_num)

theorem residual_sum_zero (l : List ℚ) (hn : 2 ≤ l.length) :
    ∑ i ∈ Finset.range l.length,
      (l.getD i 0 - (lsSlope l * i + lsIntercept l)) = 0 := by
  have hlen : (l.length : ℚ) ≠ 0 := by
    have : 0 < l.length := lt_of_lt_of_le (by norm_num) hn
    exact_mod_cast this.ne'
  have hexp : ∑ i ∈ Finset.range l.length,
      (l.getD i 0 - (lsSlope l * i + lsIntercept l)) =
      sumVals l - lsSlope l * sumIdx l.length -
        l.length * lsIntercept l := by
    rw [sumVals, sumIdx, Finset.mul_sum]
    rw [Finset.sum_sub_distrib]
    have : ∑ i ∈ Finset.range l.length, (lsSlope l * i + lsIntercept l) =
        (∑ i ∈ Finset.range l.length, lsSlope l * i) +
        l.length * lsIntercept l := by
      rw [Finset.sum_add_distrib, Finset.sum_const, Finset.card_range,
        nsmul_eq_mul]
    rw [this]
    ring
  rw [hexp, lsIntercept]
  field_simp

theorem residual_idx_zero (l : List ℚ) (hn : 2 ≤ l.length) :
    ∑ i ∈ Finset.range l.length,
      (i : ℚ) * (l.getD i 0 - (lsSlope l * i + lsIntercept l)) = 0 := by
  have hlen : (l.length : ℚ) ≠ 0 := by
    have : 0 < l.length := lt_of_lt_of_le (by norm_num) hn
    exact_mod_cast this.ne'
  have hden : lsDenom l.length ≠ 0 := (lsDenom_pos l.length hn).ne'
  have hslope : lsSlope l * lsDenom l.length =
      l.length * sumIdxVals l - sumIdx l.length * sumVals l := by
    rw [lsSlope]
    field_simp
  have hterm : ∀ i ∈ Finset.range l.length,
      (i : ℚ) * (l.getD i 0 - (lsSlope l * i + lsIntercept l)) =
      (i : ℚ) * l.getD i 0 - lsSlope l * (i : ℚ) ^ 2 -
        lsIntercept l * (i : ℚ) := fun i _ => by ring
  have hexp : ∑ i ∈ Finset.range l.length,
      (i : ℚ) * (l.getD i 0 - (lsSlope l * i + lsIntercept l)) =
      sumIdxVals l - lsSlope l * sumIdxSq l.length -
        lsIntercept l * sumIdx l.length := by
    simp only [sumIdxVals, sumIdxSq, sumIdx, Finset.mul_sum]
    rw [Finset.sum_congr rfl hterm, Finset.sum_sub_distrib, Finset.sum_sub_distrib]
  rw [hexp, lsIntercept]
  rw [lsDenom] at hslope
  field_simp
  linarith [hslope]

/-- The closed-form fit minimizes the sum of squared residuals: `np.polyfit`'s
degree-1 output is the least-squares line. -/
theorem lsFit_optimal (l : List ℚ) (hn : 2 ≤ l.length) (m c : ℚ) :
    sse l (lsSlope l) (lsIntercept l) ≤ sse l m c := by
  set s := lsSlope l with hs
  set b := lsIntercept l with hb
  have hterm : ∀ i ∈ Finset.range l.length,
      (l.getD i 0 - (m * i + c)) ^ 2 =
      (l.getD i 0 - (s * i + b)) ^ 2
      + (2 * ((s - m) * i + (b - c))) * (l.getD i 0 - (s * i + b))
      + ((s - m) * i + (b - c)) ^ 2 := fun i _ => by ring
  have hcross : ∑ i ∈ Finset.range l.length,
      (2 * ((s - m) * i + (b - c))) * (l.getD i 0 - (s * i + b)) = 0 := by
    have hterm2 : ∀ i ∈ Finset.range l.length,
        (2 * ((s - m) * i + (b - c))) * (l.getD i 0 - (s * i + b)) =
        2 * (s - m) * ((i : ℚ) * (l.getD i 0 - (s * i + b)))
        + 2 * (b - c) * (l.getD i 0 - (s * i + b)) := fun i _ => by ring
    rw [Finset.sum_congr rfl hterm2, Finset.sum_add_distrib,
      ← Finset.mul_sum, ← Finset.mul_sum]
    rw [residual_idx_zero l hn, residual_sum_zero l hn]
    ring
  have hsq : 0 ≤ ∑ i ∈ Finset.range l.length, ((s - m) * i + (b - c)) ^ 2 :=
    Finset.sum_nonneg fun i _ => sq_nonneg _
  have hdecomp : sse l m c = sse l s b
      + ∑ i ∈ Finset.range l.length,
          (2 * ((s - m) * i + (b - c))) * (l.getD i 0 - (s * i + b))
      + ∑ i ∈ Finset.range l.length, ((s - m) * i + (b - c)) ^ 2 := by
    rw [sse, Finset.sum_congr rfl hterm, Finset.sum_add_distrib,
      Finset.sum_add_distrib, sse]
  rw [hdecomp, hcross]
  linarith

/-- Python's `min(values)` on a non-empty list (`0` on the unreachable empty
case). -/
def listMin : List ℚ → ℚ
  | [] => 0
  | x :: xs => xs.foldl min x

/-- Python's `max(values)` on a non-empty list. -/
def listMax : List ℚ → ℚ
  | [] => 0
  | x :: xs => xs.foldl max x

theorem foldl_min_mem (xs : List ℚ) : ∀ x : ℚ, xs.foldl min x ∈ x :: xs := by
  induction xs with
  | nil => intro x; simp
  | cons y ys ih =>
      intro x
      have h := ih (min x y)
      simp only [List.foldl_cons]
      rcases List.mem_cons.mp h with h | h
      · rcases min_choice x y with hc | hc
        · rw [h, hc]; exact List.mem_cons_self _ _
        · rw [h, hc]; exact List.mem_cons_of_mem _ (List.mem_cons_self _ _)
      · exact List.mem_cons_of_mem _ (List.mem_cons_of_mem _ h)

theorem foldl_min_le (xs : List ℚ) :
    ∀ x v, v ∈ x :: xs → xs.foldl min x ≤ v := by
  induction xs with
  | nil =>
      intro x v hv
      simp only [List.foldl_nil]
      rcases List.mem_cons.mp hv with rfl | hv
      · exact le_refl _
      · simp at hv
  | cons y ys ih =>
      intro x v hv
      simp only [List.foldl_cons]
      rcases List.mem_cons.mp hv with rfl | hv2
      · exact le_trans (ih _ _ (List.mem_cons_self _ _)) (min_le_left _ _)
      · rcases List.mem_cons.mp hv2 with rfl | hv3
        · exact le_trans (ih _ _ (List.mem_cons_self _ _)) (min_le_right _ _)
        · exact ih _ _ (List.mem_cons_of_mem _ hv3)

theorem foldl_max_mem (xs : List ℚ) : ∀ x : ℚ, xs.foldl max x ∈ x :: xs := by
  induction xs with
  | nil => intro x; simp
  | cons y ys ih =>
      intro x
      have h := ih (max x y)
      simp only [List.foldl_cons]
      rcases List.mem_cons.mp h with h | h
      · rcases max_choice x y with hc | hc
        · rw [h, hc]; exact List.mem_cons_self _ _
        · rw [h, hc]; exact List.mem_cons_of_mem _ (List.mem_cons_self _ _)
      · exact List.mem_cons_of_mem _ (List.mem_cons_of_mem _ h)

theorem foldl_max_ge (xs : List ℚ) :
    ∀ x v, v ∈ x :: xs → v ≤ xs.foldl max x := by
  induction xs with
  | nil =>
      intro x v hv
      simp only [List.foldl_nil]
      rcases List.mem_cons.mp hv with rfl | hv
      · exact le_refl _
      · simp at hv
  | cons y ys ih =>
      intro x v hv
      simp only [List.foldl_cons]
      rcases List.mem_cons.mp hv with rfl | hv2
      · exact le_trans (le_max_left _ _) (ih _ _ (List.mem_cons_self _ _))
      · rcases List.mem_cons.mp hv2 with rfl | hv3
        · exact le_trans (le_max_right _ _) (ih _ _ (List.mem_cons_self _ _))
        · exact ih _ _ (List.mem_cons_of_mem _ hv3)

theorem listMin_mem (l : List ℚ) (h : l ≠ []) : listMin l ∈ l := by
  cases l with
  | nil => exact absurd rfl h
  | cons x xs => exact foldl_min_mem xs x

theorem listMin_le (l : List ℚ) : ∀ v ∈ l, listMin l ≤ v := by
  cases l with
  | nil => intro v hv; simp at hv
  | cons x xs => exact fun v hv => foldl_min_le xs x v hv

theorem listMax_mem (l : List ℚ) (h : l ≠ []) : listMax l ∈ l := by
  cases l with
  | nil => exact absurd rfl h
  | cons x xs => exact foldl_max_mem xs x

theorem le_listMax (l : List ℚ) : ∀ v ∈ l, v ≤ listMax l := by
  cases l with
  | nil => intro v hv; simp at hv
  | cons x xs => exact fun v hv => foldl_max_ge xs x v hv

/-- The dict returned by `get_metric_trend` (lines 437-446). -/
structure Trend where
  values : List ℚ
  timestamps : List ℚ
  trend : String
  slope : ℚ
  current : ℚ
  average : ℚ
  min : ℚ
  max : ℚ
deriving DecidableEq, Repr

/-- `ORDER BY timestamp`. -/
def tsLe (r s : MetricRow) : Prop := r.timestamp ≤ s.timestamp

instance : DecidableRel tsLe :=
  fun r s => inferInstanceAs (Decidable (r.timestamp ≤ s.timestamp))

instance : IsTotal MetricRow tsLe := ⟨fun a b => le_total a.timestamp b.timestamp⟩

instance : IsTrans MetricRow tsLe := ⟨fun _ _ _ => le_trans⟩

/-- The SQL query of `get_metric_trend`: rows of the metric with
`timestamp > cutoff`, ordered by timestamp. -/
def metricWindow (name : String) (cutoff : ℚ) (st : KBState) : List MetricRow :=
  List.insertionSort tsLe (st.long_term_metrics.filter
    (fun r => r.metric_name = name ∧ cutoff < r.timestamp))

/-- The result dict built at lines 431-446: `np.polyfit` slope, the threshold
classification (`> 0.1` increasing, `< -0.1` decreasing, else stable),
`values[-1]`, `statistics.mean`, `min`, `max`. -/
def mkTrend (values timestamps : List ℚ) : Trend :=
  { values := values, timestamps := timestamps,
    trend := if 1/10 < lsSlope values then "increasing"
      else if lsSlope values < -(1/10) then "decreasing" else "stable",
    slope := lsSlope values,
    current := values.getLastD 0,
    average := values.sum / values.length,
    min := listMin values,
    max := listMax values }

/-- `KnowledgeBase.get_metric_trend` (lines 405-459): `None` when the tables
are unavailable or fewer than two samples fall in the window, otherwise the
trend dict over the windowed values. -/
def get_metric_trend (tablesOk : Bool) (name : String) (cutoff : ℚ)
    (st : KBState) : Option Trend :=
  if tablesOk = false then none
  else if (metricWindow name cutoff st).length < 2 then none
  else some (mkTrend ((metricWindow name cutoff st).map (fun r => r.metric_value))
    ((metricWindow name cutoff st).map (fun r => r.timestamp)))

/-- C4: with the store available, `get_metric_trend` returns `None` exactly
when fewer than two samples exist in the window; with at least two samples it
returns the trend whose `slope` (with some intercept) minimizes the sum of
squared residuals over sample index versus value, classified `"increasing"`
iff `slope > 0.1`, `"decreasing"` iff `slope < -0.1` and `"stable"` iff
neither, and reporting the last, mean, least and greatest windowed values. -/
theorem C4_get_metric_trend (name : String) (cutoff : ℚ) (st : KBState) :
    (get_metric_trend true name cutoff st = none ↔
      (metricWindow name cutoff st).length < 2) ∧
    (∀ _h2 : 2 ≤ (metricWindow name cutoff st).length,
      get_metric_trend true name cutoff st =
        some (mkTrend ((metricWindow name cutoff st).map (fun r => r.metric_value))
          ((metricWindow name cutoff st).map (fun r => r.timestamp))) ∧
      ∀ t, get_metric_trend true name cutoff st = some t →
        t.values = (metricWindow name cutoff st).map (fun r => r.metric_value) ∧
        (∃ b, ∀ m c : ℚ, sse t.values t.slope b ≤ sse t.values m c) ∧
        (t.trend = "increasing" ↔ 1/10 < t.slope) ∧
        (t.trend = "decreasing" ↔ t.slope < -(1/10)) ∧
        (t.trend = "stable" ↔ -(1/10) ≤ t.slope ∧ t.slope ≤ 1/10) ∧
        t.values.getLast? = some t.current ∧
        t.average * t.values.length = t.values.sum ∧
        (t.min ∈ t.values ∧ ∀ v ∈ t.values, t.min ≤ v) ∧
        (t.max ∈ t.values ∧ ∀ v ∈ t.values, v ≤ t.max)) := by
  constructor
  · by_cases hlen : (metricWindow name cutoff st).length < 2
    · simp [get_metric_trend, hlen]
    · simp [get_metric_trend, hlen]
  · intro h2
    have hlen : ¬((metricWindow name cutoff st).length < 2) := not_lt.mpr h2
    have hget : get_metric_trend true name cutoff st =
        some (mkTrend ((metricWindow name cutoff st).map (fun r => r.metric_value))
          ((metricWindow name cutoff st).map (fun r => r.timestamp))) := by
      simp [get_metric_trend, hlen]
    refine ⟨hget, ?_⟩
    intro t ht
    rw [hget] at ht
    have ht' : t = mkTrend ((metricWindow name cutoff st).map (fun r => r.metric_value))
        ((metricWindow name cutoff st).map (fun r => r.timestamp)) :=
      (Option.some_injective _ ht).symm
    subst ht'
    set vals := (metricWindow name cutoff st).map (fun r => r.metric_value) with hvals
    have hval_len : 2 ≤ vals.length := by simpa [hvals] using h2
    have hvne : vals ≠ [] := by
      intro h
      rw [h] at hval_len
      simp at hval_len
    have hlen_ne : (vals.length : ℚ) ≠ 0 := by
      have : 0 < vals.length := lt_of_lt_of_le (by norm_num) hval_len
      exact_mod_cast this.ne'
    refine ⟨rfl, ⟨lsIntercept vals, fun m c => lsFit_optimal vals hval_len m c⟩,
      ?_, ?_, ?_, ?_, ?_, ?_, ?_⟩
    · simp only [mkTrend]
      by_cases hc1 : (1 : ℚ)/10 < lsSlope vals
      · rw [if_pos hc1]
        exact ⟨fun _ => hc1, fun _ => rfl⟩
      · rw [if_neg hc1]
        by_cases hc2 : lsSlope vals < -(1/10)
        · rw [if_pos hc2]
          exact ⟨fun h => absurd h (by decide), fun h => absurd h hc1⟩
        · rw [if_neg hc2]
          exact ⟨fun h => absurd h (by decide), fun h => absurd h hc1⟩
    · simp only [mkTrend]
      by_cases hc1 : (1 : ℚ)/10 < lsSlope vals
      · rw [if_pos hc1]
        refine ⟨fun h => absurd h (by decide), fun h => absurd h ?_⟩
        push_neg
        linarith
      · rw [if_neg hc1]
        by_cases hc2 : lsSlope vals < -(1/10)
        · rw [if_pos hc2]
          exact ⟨fun _ => hc2, fun _ => rfl⟩
        · rw [if_neg hc2]
          exact ⟨fun h => absurd h (by decide), fun h => absurd h hc2⟩
    · simp only [mkTrend]
      by_cases hc1 : (1 : ℚ)/10 < lsSlope vals
      · rw [if_pos hc1]
        refine ⟨fun h => absurd h (by decide), fun h => absurd hc1 ?_⟩
        push_neg
        exact h.2
      · rw [if_neg hc1]
        by_cases hc2 : lsSlope vals < -(1/10)
        · rw [if_pos hc2]
          refine ⟨fun h => absurd h (by decide), fun h => absurd hc2 ?_⟩
          push_neg
          exact h.1
        · rw [if_neg hc2]
          exact ⟨fun _ => ⟨not_lt.mp hc2, not_lt.mp hc1⟩, fun _ => rfl⟩
    · obtain ⟨a, ha⟩ := Option.isSome_iff_exists.mp
        (List.getLast?_isSome.mpr hvne)
      show vals.getLast? = some (vals.getLastD 0)
      rw [List.getLastD_eq_getLast?, ha]
      rfl
    · exact div_mul_cancel₀ _ hlen_ne
    · exact ⟨listMin_mem vals hvne, listMin_le vals⟩
    · exact ⟨listMax_mem vals hvne, le_listMax vals⟩

/-- A concrete store with two samples of metric `x` inside the window. -/
def trendSt : KBState :=
  ⟨[], [], [⟨"x", 0, 1, none⟩, ⟨"x", 1, 2, none⟩]⟩

/-- Witness for C4: two samples of `x` after cutoff `0`; the trend is
defined (the window has two samples, so the result is the trend dict). -/
theorem C4_get_metric_trend_witness :
    get_metric_trend true "x" 0 trendSt =
      some (mkTrend ((metricWindow "x" 0 trendSt).map (fun r => r.metric_value))
        ((metricWindow "x" 0 trendSt).map (fun r => r.timestamp))) :=
  ((C4_get_metric_trend "x" 0 trendSt).2 (by decide)).1

/-! ## The decision engine (`AutonomousDoctor.analyze_system_state`) -/

/-- `priority_order = {'high': 3, 'medium': 2, 'low': 1}` read through
`.get(x['priority'], 0)` (line 1233). -/
def priorityRank (a : Action) : ℕ :=
  if a.priority = "high" then 3
  else if a.priority = "medium" then 2
  else if a.priority = "low" then 1
  else 0

/-- Descending-rank ordering between actions. -/
def rankGe (x y : Action) : Prop := priorityRank y ≤ priorityRank x

/-- One step of the stable descending sort: the new element goes after every
already-placed element of equal or higher rank. -/
def insertRankedDesc (a : Action) : List Action → List Action
  | [] => [a]
  | b :: l =>
      if priorityRank a ≤ priorityRank b then b :: insertRankedDesc a l
      else a :: b :: l

/-- Python's `sorted(actions, key=lambda x: priority_order.get(x['priority'], 0),
reverse=True)` (line 1234): a stable sort by rank, descending. -/
def pySortDesc (l : List Action) : List Action :=
  l.foldl (fun acc a => insertRankedDesc a acc) []

theorem insertRankedDesc_perm (a : Action) (l : List Action) :
    (insertRankedDesc a l).Perm (a :: l) := by
  induction l with
  | nil => simp [insertRankedDesc]
  | cons b l ih =>
      simp only [insertRankedDesc]
      by_cases hc : priorityRank a ≤ priorityRank b
      · rw [if_pos hc]
        exact (ih.cons b).trans (List.Perm.swap a b l)
      · rw [if_neg hc]

theorem insertRankedDesc_pairwise (a : Action) (l : List Action)
    (h : l.Pairwise rankGe) : (insertRankedDesc a l).Pairwise rankGe := by
  induction l with
  | nil => simp [insertRankedDesc, rankGe]
  | cons b l ih =>
      obtain ⟨hb, hl⟩ := List.pairwise_cons.mp h
      simp only [insertRankedDesc]
      by_cases hc : priorityRank a ≤ priorityRank b
      · rw [if_pos hc]
        refine List.pairwise_cons.mpr ⟨?_, ih hl⟩
        intro y hy
        rcases List.mem_cons.mp ((insertRankedDesc_perm a l).mem_iff.mp hy) with
          rfl | hy2
        · exact hc
        · exact hb y hy2
      · rw [if_neg hc]
        refine List.pairwise_cons.mpr ⟨?_, h⟩
        intro y hy
        rcases List.mem_cons.mp hy with rfl | hy2
        · exact le_of_lt (not_le.mp hc)
        · exact le_trans (hb y hy2) (le_of_lt (not_le.mp hc))

theorem insertRankedDesc_filter (a : Action) (l : List Action) (k : ℕ)
    (h : l.Pairwise rankGe) :
    (insertRankedDesc a l).filter (fun x => priorityRank x = k) =
      if priorityRank a = k then
        l.filter (fun x => priorityRank x = k) ++ [a]
      else l.filter (fun x => priorityRank x = k) := by
  induction l with
  | nil =>
      by_cases hak : priorityRank a = k
      · simp [insertRankedDesc, hak]
      · simp [insertRankedDesc, hak]
  | cons b l ih =>
      obtain ⟨hb, hl⟩ := List.pairwise_cons.mp h
      simp only [insertRankedDesc]
      by_cases hc : priorityRank a ≤ priorityRank b
      · rw [if_pos hc]
        by_cases hbk : priorityRank b = k
        · rw [List.filter_cons_of_pos (by simpa using hbk), ih hl,
            List.filter_cons_of_pos (by simpa using hbk)]
          by_cases hak : priorityRank a = k
          · rw [if_pos hak, if_pos hak]
            rfl
          · rw [if_neg hak, if_neg hak]
        · rw [List.filter_cons_of_neg (by simpa using hbk), ih hl,
            List.filter_cons_of_neg (by simpa using hbk)]
      · rw [if_neg hc]
        have hblt : priorityRank b < priorityRank a := not_le.mp hc
        by_cases hak : priorityRank a = k
        · rw [if_pos hak, List.filter_cons_of_pos (by simpa using hak)]
          have hnil : (b :: l).filter (fun x => priorityRank x = k) = [] := by
            apply List.filter_eq_nil_iff.mpr
            intro y hy
            have hylt : priorityRank y < priorityRank a := by
              rcases List.mem_cons.mp hy with rfl | hy2
              · exact hblt
              · exact lt_of_le_of_lt (hb y hy2) hblt
            rw [← hak]
            simpa using Nat.ne_of_lt hylt
          rw [hnil]
          rfl
        · rw [if_neg hak, List.filter_cons_of_neg (by simpa using hak)]

theorem foldlInsert_pairwise (l : List Action) :
    ∀ acc : List Action, acc.Pairwise rankGe →
      (l.foldl (fun acc a => insertRankedDesc a acc) acc).Pairwise rankGe := by
  induction l with
  | nil => intro acc h; simpa using h
  | cons a l ih =>
      intro acc h
      simp only [List.foldl_cons]
      exact ih _ (insertRankedDesc_pairwise a acc h)

theorem foldlInsert_filter (l : List Action) (k : ℕ) :
    ∀ acc : List Action, acc.Pairwise rankGe →
      (l.foldl (fun acc a => insertRankedDesc a acc) acc).filter
          (fun x => priorityRank x = k) =
        acc.filter (fun x => priorityRank x = k) ++
          l.filter (fun x => priorityRank x = k) := by
  induction l with
  | nil => intro acc h; simp
  | cons a l ih =>
      intro acc h
      simp only [List.foldl_cons]
      rw [ih _ (insertRankedDesc_pairwise a acc h),
        insertRankedDesc_filter a acc k h]
      by_cases hak : priorityRank a = k
      · rw [if_pos hak, List.filter_cons_of_pos (by simpa using hak)]
        simp
      · rw [if_neg hak, List.filter_cons_of_neg (by simpa using hak)]

theorem pySortDesc_pairwise (l : List Action) : (pySortDesc l).Pairwise rankGe :=
  foldlInsert_pairwise l [] List.Pairwise.nil

theorem pySortDesc_filter (l : List Action) (k : ℕ) :
    (pySortDesc l).filter (fun x => priorityRank x = k) =
      l.filter (fun x => priorityRank x = k) := by
  have h := foldlInsert_filter l k [] List.Pairwise.nil
  simpa [pySortDesc] using h

/-- The numeric thresholds the analyzer reads; `failed_logins` is read via
`.get('failed_logins', 10)`, the others by direct indexing. -/
structure Thresholds where
  cpu_temp : ℚ
  memory_usage : ℚ
  disk_usage : ℚ
  load_15min : ℚ
  failed_logins : Option ℚ
  packet_loss : ℚ
deriving DecidableEq, Repr

/-- One entry of `get_similar_patterns`' result, restricted to the fields the
analyzer reads. -/
structure PatternMatch where
  similarity : ℚ
  severity : ℚ
  confidence : ℚ
  solution : String
deriving DecidableEq, Repr

/-- The `trends_to_check` table of `check_long_term_trends`
(lines 1239-1244): metric, expected direction, reason text. -/
def trendsToCheck : List (String × String × String) :=
  [("cpu_temperature", "high", "CPU temperature trending upward"),
   ("memory_percent", "high", "Memory usage trending upward"),
   ("disk_percent", "high", "Disk usage trending upward"),
   ("load_15min", "high", "System load trending upward")]

/-- `AutonomousDoctor.check_long_term_trends` (lines 1236-1260): for each
watched metric, query the trend and emit a medium-priority
`investigate_trend` action when `trend['trend'] == direction` and
`|slope| > 0.5`.  (The table's direction column is the literal `'high'`,
which the trend classifier never produces — kept faithfully.) -/
def check_long_term_trends (tablesOk : Bool) (cutoff : ℚ) (st : KBState) :
    List Action :=
  trendsToCheck.filterMap fun mdr =>
    match get_metric_trend tablesOk mdr.1 cutoff st with
    | some t =>
        if t.trend = mdr.2.1 ∧ 1/2 < |t.slope| then
          some ⟨"investigate_trend", mdr.1, "medium", mdr.2.2, false, none, false⟩
        else none
    | none => none

/-- The candidate actions of `analyze_system_state` (lines 1148-1230), in
generation order: learned-pattern matches (similarity `> 0.75`, non-empty
solution, `high` when severity `> 0.7` else `medium`), then the seven
threshold rules in table order, then the trend alerts. -/
def analyzeCandidates (similar : List PatternMatch) (health : Health)
    (failed_list : String) (thr : Thresholds) (tablesOk : Bool) (cutoff : ℚ)
    (st : KBState) : List Action :=
  (similar.filterMap fun p =>
    if 3/4 < p.similarity ∧ p.solution ≠ "" then
      some ⟨p.solution, "", if 7/10 < p.severity then "high" else "medium",
        "Matched learned pattern", true, some p.similarity, false⟩
    else none)
  ++ (if thr.cpu_temp < health.cpu.temperature then
      [⟨"throttle_cpu", "", "high", "CPU temperature critical", false, none,
        false⟩] else [])
  ++ (if thr.memory_usage < health.memory.percent then
      [⟨"clear_cache", "", "medium", "High memory usage", false, none,
        false⟩] else [])
  ++ (if thr.disk_usage < health.disk.percent then
      [⟨"clean_logs", "", "high", "Disk usage critical", false, none,
        false⟩] else [])
  ++ (if thr.load_15min < health.cpu.load_15min then
      [⟨"manage_services", "stop_non_essential", "medium", "High system load",
        false, none, false⟩] else [])
  ++ (if 0 < health.services.failed_count then
      [⟨"restart_failed_services", "", "medium",
        "failed services detected: " ++ failed_list, false, none, true⟩]
      else [])
  ++ (if thr.failed_logins.getD 10 < health.security.failed_logins then
      [⟨"increase_security", "", "high", "High failed login attempts", false,
        none, false⟩] else [])
  ++ (if thr.packet_loss < health.network.packet_loss_percent then
      [⟨"optimize_network", "", "medium", "High packet loss", false, none,
        false⟩] else [])
  ++ check_long_term_trends tablesOk cutoff st

/-- `AutonomousDoctor.analyze_system_state` (lines 1135-1234): empty when no
health data has been collected, otherwise the candidates sorted by priority
rank, descending, with Python's stable `sorted`. -/
def analyze_system_state (similar : List PatternMatch) (health : Option Health)
    (failed_list : String) (thr : Thresholds) (tablesOk : Bool) (cutoff : ℚ)
    (st : KBState) : List Action :=
  match health with
  | none => []
  | some h =>
      pySortDesc (analyzeCandidates similar h failed_list thr tablesOk cutoff st)

/-- A medium-priority example action. -/
def medAct : Action := ⟨"clear_cache", "", "medium", "", false, none, false⟩

/-- A high-priority example action. -/
def highAct : Action := ⟨"clean_logs", "", "high", "", false, none, false⟩

/-- A low-priority example action. -/
def lowAct : Action := ⟨"noop", "", "low", "", false, none, false⟩

/-- A second high-priority example action. -/
def highAct2 : Action := ⟨"throttle_cpu", "", "high", "", false, none, false⟩

/-- C5: the list returned by `analyze_system_state` is sorted by priority rank
(`high=3, medium=2, low=1`, unknown `0`) in descending order; within each rank
the actions appear exactly in the order the candidates were generated
(learned-pattern matches, then the threshold rules in table order, then trend
alerts) — a stable sort; in particular the candidate order
`[medium, high, low]` comes out `[high, medium, low]`, and two `high` actions
keep their relative order. -/
theorem C5_analyze_sorted_stable (similar : List PatternMatch)
    (health : Option Health) (failed_list : String) (thr : Thresholds)
    (tablesOk : Bool) (cutoff : ℚ) (st : KBState) :
    (analyze_system_state similar health failed_list thr tablesOk cutoff
        st).Pairwise (fun x y => priorityRank y ≤ priorityRank x) ∧
    (∀ (h : Health) (k : ℕ),
      (analyze_system_state similar (some h) failed_list thr tablesOk cutoff
          st).filter (fun a => priorityRank a = k) =
      (analyzeCandidates similar h failed_list thr tablesOk cutoff st).filter
        (fun a => priorityRank a = k)) ∧
    pySortDesc [medAct, highAct, lowAct] = [highAct, medAct, lowAct] ∧
    pySortDesc [highAct, highAct2] = [highAct, highAct2] := by
  refine ⟨?_, ?_, by decide, by decide⟩
  · cases health with
    | none => simp [analyze_system_state]
    | some h => exact pySortDesc_pairwise _
  · intro h k
    exact pySortDesc_filter _ k

end RaspiDoctor
